import Mathlib

set_option maxRecDepth 100000

/-!
# Verification of the EU K-Beauty daily briefing pipeline

Shallow embedding of `daily_briefing.py`: the item-key generator
(`stable_key`, SHA-256 based), text normalisation (`strip_html`,
`norm_dt`), the keyword classifier (`auto_tag`), the feed collector's
item construction and sorting (`fetch_all`), the seen-state store
(`save_state` and the recording step of `main`), and the digest
renderer (`item_html`, `build_html_report`), together with theorems
about the specified properties.

Machine integers are modelled as `Nat` with explicit reduction
`% 2 ^ 32` where 32-bit overflow matters; Python exceptions are
modelled as `Option`.
-/

/-! ## SHA-256 (the `hashlib.sha256` call used by `stable_key`)

A direct embedding of FIPS 180-4 over byte lists (`List Nat`, each
entry `< 256`), with 32-bit words as `Nat` reduced modulo `2 ^ 32`. -/

/-- `2 ^ 32`, the word modulus of SHA-256. -/
def M32 : Nat := 4294967296

/-- Right rotation of a 32-bit word. -/
def rotr32 (n x : Nat) : Nat := ((x >>> n) + (x <<< (32 - n))) % M32

/-- SHA-256 Σ₀. -/
def bigSigma0 (x : Nat) : Nat := rotr32 2 x ^^^ rotr32 13 x ^^^ rotr32 22 x

/-- SHA-256 Σ₁. -/
def bigSigma1 (x : Nat) : Nat := rotr32 6 x ^^^ rotr32 11 x ^^^ rotr32 25 x

/-- SHA-256 σ₀. -/
def smallSigma0 (x : Nat) : Nat := rotr32 7 x ^^^ rotr32 18 x ^^^ (x >>> 3)

/-- SHA-256 σ₁. -/
def smallSigma1 (x : Nat) : Nat := rotr32 17 x ^^^ rotr32 19 x ^^^ (x >>> 10)

/-- SHA-256 `Ch` (the complement is taken on 32 bits). -/
def chF (x y z : Nat) : Nat := (x &&& y) ^^^ ((x ^^^ 4294967295) &&& z)

/-- SHA-256 `Maj`. -/
def majF (x y z : Nat) : Nat := (x &&& y) ^^^ (x &&& z) ^^^ (y &&& z)

/-- The 64 SHA-256 round constants. -/
def K256 : List Nat :=
  [1116352408, 1899447441, 3049323471, 3921009573, 961987163, 1508970993,
   2453635748, 2870763221, 3624381080, 310598401, 607225278, 1426881987,
   1925078388, 2162078206, 2614888103, 3248222580, 3835390401, 4022224774,
   264347078, 604807628, 770255983, 1249150122, 1555081692, 1996064986,
   2554220882, 2821834349, 2952996808, 3210313671, 3336571891, 3584528711,
   113926993, 338241895, 666307205, 773529912, 1294757372, 1396182291,
   1695183700, 1986661051, 2177026350, 2456956037, 2730485921, 2820302411,
   3259730800, 3345764771, 3516065817, 3600352804, 4094571909, 275423344,
   430227734, 506948616, 659060556, 883997877, 958139571, 1322822218,
   1537002063, 1747873779, 1955562222, 2024104815, 2227730452, 2361852424,
   2428436474, 2756734187, 3204031479, 3329325298]

/-- The SHA-256 initial hash value. -/
def H256init : List Nat :=
  [1779033703, 3144134277, 1013904242, 2773480762,
   1359893119, 2600822924, 528734635, 1541459225]

/-- Group a byte list into big-endian 32-bit words. -/
def toWords : List Nat → List Nat
  | a :: b :: c :: d :: rest => (a * 16777216 + b * 65536 + c * 256 + d) :: toWords rest
  | _ => []

/-- One message-schedule extension step: append `W[t]` computed from
`W[t-2]`, `W[t-7]`, `W[t-15]`, `W[t-16]`. -/
def scheduleStep (acc : List Nat) : List Nat :=
  acc ++ [(smallSigma1 (acc.getD (acc.length - 2) 0) + acc.getD (acc.length - 7) 0 +
           smallSigma0 (acc.getD (acc.length - 15) 0) + acc.getD (acc.length - 16) 0) % M32]

/-- Extend the 16 words of a block to the full 64-entry message schedule. -/
def extendSchedule (w : List Nat) : List Nat :=
  (List.range 48).foldl (fun acc _ => scheduleStep acc) w

/-- Working state of the SHA-256 compression loop: `(a,b,c,d,e,f,g,h)`. -/
def Sha256State : Type := Nat × Nat × Nat × Nat × Nat × Nat × Nat × Nat

/-- One round of the SHA-256 compression function, consuming a
`(round constant, scheduled word)` pair. -/
def compressStep (st : Sha256State) (kw : Nat × Nat) : Sha256State :=
  match st, kw with
  | (a, b, c, d, e, f, g, h), (k, w) =>
    let t1 := (h + bigSigma1 e + chF e f g + k + w) % M32
    let t2 := (bigSigma0 a + majF a b c) % M32
    ((t1 + t2) % M32, a, b, c, (d + t1) % M32, e, f, g)

/-- Process one 64-byte block, updating the intermediate hash value. -/
def processBlock (h : List Nat) (block : List Nat) : List Nat :=
  let ws := extendSchedule (toWords block)
  let init : Sha256State :=
    (h.getD 0 0, h.getD 1 0, h.getD 2 0, h.getD 3 0, h.getD 4 0, h.getD 5 0, h.getD 6 0, h.getD 7 0)
  match (K256.zip ws).foldl compressStep init with
  | (a, b, c, d, e, f, g, hh) =>
    [(h.getD 0 0 + a) % M32, (h.getD 1 0 + b) % M32, (h.getD 2 0 + c) % M32,
     (h.getD 3 0 + d) % M32, (h.getD 4 0 + e) % M32, (h.getD 5 0 + f) % M32,
     (h.getD 6 0 + g) % M32, (h.getD 7 0 + hh) % M32]

/-- SHA-256 padding: `0x80`, zero bytes to 56 mod 64, then the bit
length as a 64-bit big-endian integer. -/
def padMessage (msg : List Nat) : List Nat :=
  let len := msg.length
  let bitLen := len * 8
  msg ++ [128] ++ List.replicate ((119 - len % 64) % 64) 0 ++
    (List.range 8).map (fun i => (bitLen >>> ((7 - i) * 8)) &&& 255)

/-- Split a byte list into 64-byte blocks, with structural fuel (one
unit of fuel per byte suffices, since every step consumes a byte). -/
def chunks64Fuel : Nat → List Nat → List (List Nat)
  | 0, _ => []
  | _, [] => []
  | fuel + 1, x :: rest => ((x :: rest).take 64) :: chunks64Fuel fuel (rest.drop 63)

/-- Split a (padded) byte list into 64-byte blocks. -/
def chunks64 (l : List Nat) : List (List Nat) := chunks64Fuel l.length l

/-- The SHA-256 digest of a byte list, as eight 32-bit words. -/
def sha256Words (msg : List Nat) : List Nat :=
  (chunks64 (padMessage msg)).foldl processBlock H256init

/-- One lowercase hexadecimal digit (`Nat.digitChar` maps 0–15 to
`'0'`–`'9'`, `'a'`–`'f'`). -/
def hexDigit (n : Nat) : Char := Nat.digitChar n

/-- The eight lowercase hex characters of a 32-bit word, most
significant nibble first. -/
def word8Hex (w : Nat) : List Char :=
  (List.range 8).map (fun i => hexDigit ((w >>> ((7 - i) * 4)) &&& 15))

/-- The lowercase hexadecimal digest string (Python's
`hashlib.sha256(...).hexdigest()`). -/
def sha256Hex (msg : List Nat) : String := String.mk ((sha256Words msg).flatMap word8Hex)

/-! ## UTF-8 encoding (Python's `str.encode("utf-8", errors="ignore")`)

Lean `Char` excludes surrogates, the only code points the `ignore`
error handler can drop, so the encoding is total. -/

/-- The UTF-8 bytes of one code point. -/
def utf8Bytes (c : Char) : List Nat :=
  let n := c.toNat
  if n < 128 then [n]
  else if n < 2048 then [192 + (n >>> 6), 128 + (n &&& 63)]
  else if n < 65536 then [224 + (n >>> 12), 128 + ((n >>> 6) &&& 63), 128 + (n &&& 63)]
  else [240 + (n >>> 18), 128 + ((n >>> 12) &&& 63), 128 + ((n >>> 6) &&& 63), 128 + (n &&& 63)]

/-- UTF-8 encoding of a string as a byte list. -/
def utf8Encode (s : String) : List Nat := s.data.flatMap utf8Bytes

/-! ## `stable_key` (daily_briefing.py, lines 36–38) -/

/-- `stable_key(link, title)`: SHA-256 of the UTF-8 bytes of
`f"{link}||{title}"`, hex digest truncated to its first 24 characters. -/
def stable_key (link title : String) : String :=
  (sha256Hex (utf8Encode (link ++ "||" ++ title))).take 24

/-! ## `strip_html` (daily_briefing.py, lines 22–23)

Models `BeautifulSoup(text, "html.parser").get_text(" ", strip=True)`
on well-formed markup: the text runs between tags are stripped of
surrounding whitespace, blank runs are dropped, and the remainder is
joined with a single space. -/

/-- The ASCII whitespace stripped by Python's `str.strip()`. -/
def pyWhitespace (c : Char) : Bool :=
  c = ' ' || c = '\t' || c = '\n' || c = '\r' || c = '\x0b' || c = '\x0c'

/-- Python's `str.strip()` (ASCII whitespace). -/
def pyStrip (s : String) : String :=
  String.mk (((s.data.dropWhile pyWhitespace).reverse.dropWhile pyWhitespace).reverse)

/-- The text runs of a markup string: characters outside `<...>` tags,
split at tags. The boolean is true while inside a tag. -/
def textSegs : List Char → Bool → List Char → List String
  | [], false, cur => [String.mk cur.reverse]
  | [], true, _ => []
  | c :: rest, false, cur =>
    if c = '<' then String.mk cur.reverse :: textSegs rest true []
    else textSegs rest false (c :: cur)
  | c :: rest, true, cur =>
    if c = '>' then textSegs rest false [] else textSegs rest true cur

/-- `strip_html(text)`: plain text of the markup, each text run
stripped, blanks dropped, joined with a single space. -/
def strip_html (t : String) : String :=
  String.intercalate " " (((textSegs t.data false []).map pyStrip).filter (fun s => s ≠ ""))

/-! ## `norm_dt` (daily_briefing.py, lines 25–34)

`dateutil.parser.parse` is an external collaborator; it is modelled on
the ISO-8601 subset of its input formats: `YYYY-MM-DD`, optionally
followed by `THH:MM:SS` and a timezone suffix (`Z`, `+HH:MM` or
`-HH:MM`), with calendar-valid fields — other inputs parse to `none`,
as invalid inputs raise in the original and `norm_dt` maps any failure
to `""`. `datetime.astimezone(timezone.utc)` is the exact wall-clock
shift; the `OverflowError` it raises outside years 1–9999 (caught by
`norm_dt`'s `except`) is modelled by the year guard in `norm_dt`. -/

/-- A parsed timezone offset: sign (`neg` for `-`), hours, minutes. -/
structure TZOff where
  neg : Bool
  oh : Nat
  om : Nat
deriving DecidableEq, Repr

/-- A parsed datetime: wall-clock fields plus optional offset
(`tz = none` models a naive `datetime`). -/
structure DT where
  y : Nat
  m : Nat
  d : Nat
  hh : Nat
  mi : Nat
  ss : Nat
  tz : Option TZOff
deriving DecidableEq, Repr

/-- Proleptic Gregorian leap year. -/
def leapYear (y : Nat) : Bool := y % 4 = 0 && (y % 100 != 0 || y % 400 = 0)

/-- Days in a month. -/
def daysInMonth (y m : Nat) : Nat :=
  if m = 2 then (if leapYear y then 29 else 28)
  else if m = 4 || m = 6 || m = 9 || m = 11 then 30 else 31

/-- The calendar day before `(y, m, d)`. -/
def prevDayD (y m d : Nat) : Nat × Nat × Nat :=
  if 2 ≤ d then (y, m, d - 1)
  else if 2 ≤ m then (y, m - 1, daysInMonth y (m - 1))
  else (y - 1, 12, 31)

/-- The calendar day after `(y, m, d)`. -/
def nextDayD (y m d : Nat) : Nat × Nat × Nat :=
  if d < daysInMonth y m then (y, m, d + 1)
  else if m < 12 then (y, m + 1, 1)
  else (y + 1, 1, 1)

/-- Rebuild a datetime from a date and a second-of-day, tagged UTC. -/
def withTime (ymd : Nat × Nat × Nat) (t : Nat) : DT :=
  ⟨ymd.1, ymd.2.1, ymd.2.2, t / 3600, t % 3600 / 60, t % 60, some ⟨false, 0, 0⟩⟩

/-- `astimezone(timezone.utc)` after `replace(tzinfo=utc)` for naive
values: naive wall-clock fields are kept (assumed UTC); an aware value
is shifted by its offset, moving at most one calendar day (offsets are
under 24 hours). -/
def toUTC (dt : DT) : DT :=
  match dt.tz with
  | none => dt
  | some off =>
    let t := dt.hh * 3600 + dt.mi * 60 + dt.ss
    let o := off.oh * 3600 + off.om * 60
    if off.neg then
      if t + o < 86400 then withTime (dt.y, dt.m, dt.d) (t + o)
      else withTime (nextDayD dt.y dt.m dt.d) (t + o - 86400)
    else
      if o ≤ t then withTime (dt.y, dt.m, dt.d) (t - o)
      else withTime (prevDayD dt.y dt.m dt.d) (t + 86400 - o)

/-- The character for the last decimal digit of `n`. -/
def dch (n : Nat) : Char := Nat.digitChar (n % 10)

/-- `datetime.isoformat()` of a UTC value:
`YYYY-MM-DDTHH:MM:SS+00:00` (fields in range print exactly as in
Python's zero-padded rendering). -/
def fmtIsoUtc (dt : DT) : String :=
  String.mk [dch (dt.y / 1000), dch (dt.y / 100), dch (dt.y / 10), dch dt.y, '-',
             dch (dt.m / 10), dch dt.m, '-', dch (dt.d / 10), dch dt.d, 'T',
             dch (dt.hh / 10), dch dt.hh, ':', dch (dt.mi / 10), dch dt.mi, ':',
             dch (dt.ss / 10), dch dt.ss, '+', '0', '0', ':', '0', '0']

/-- The value of an ASCII digit character. -/
def parseDigit (c : Char) : Option Nat := if c.isDigit then some (c.toNat - 48) else none

/-- Two digit characters as a number. -/
def dd2 (a b : Char) : Option Nat :=
  match parseDigit a, parseDigit b with
  | some x, some y => some (10 * x + y)
  | _, _ => none

/-- Four digit characters as a number. -/
def dd4 (a b c d : Char) : Option Nat :=
  match dd2 a b, dd2 c d with
  | some x, some y => some (100 * x + y)
  | _, _ => none

/-- The timezone suffix of a timestamp: absent, `Z`, or `±HH:MM`. -/
def splitTZ : List Char → Option (Option TZOff)
  | [] => some none
  | ['Z'] => some (some ⟨false, 0, 0⟩)
  | ['+', a, b, ':', c, d] =>
    (match dd2 a b, dd2 c d with
     | some oh, some om => some (some ⟨false, oh, om⟩)
     | _, _ => none)
  | ['-', a, b, ':', c, d] =>
    (match dd2 a b, dd2 c d with
     | some oh, some om => some (some ⟨true, oh, om⟩)
     | _, _ => none)
  | _ => none

/-- Purely syntactic split of `YYYY-MM-DD[THH:MM:SS[tz]]`. -/
def splitDateTime : List Char → Option (Nat × Nat × Nat × Nat × Nat × Nat × Option TZOff)
  | y1 :: y2 :: y3 :: y4 :: '-' :: m1 :: m2 :: '-' :: e1 :: e2 :: rest =>
    (match dd4 y1 y2 y3 y4, dd2 m1 m2, dd2 e1 e2 with
     | some y, some m, some d =>
       (match rest with
        | [] => some (y, m, d, 0, 0, 0, none)
        | 'T' :: h1 :: h2 :: ':' :: n1 :: n2 :: ':' :: s1 :: s2 :: tzrest =>
          (match dd2 h1 h2, dd2 n1 n2, dd2 s1 s2, splitTZ tzrest with
           | some hh, some mi, some ss, some tz => some (y, m, d, hh, mi, ss, tz)
           | _, _, _, _ => none)
        | _ => none)
     | _, _, _ => none)
  | _ => none

/-- Offsets representable by `dateutil`/`datetime` (under ±24 hours). -/
def tzOk : Option TZOff → Bool
  | none => true
  | some off => off.oh ≤ 23 && off.om ≤ 59

/-- Range validation of parsed fields (`dateutil` rejects month 13,
Feb 30, hour 25, …). -/
def buildDT (y m d hh mi ss : Nat) (tz : Option TZOff) : Option DT :=
  if 1 ≤ y && y ≤ 9999 && 1 ≤ m && m ≤ 12 && 1 ≤ d && d ≤ daysInMonth y m
     && hh ≤ 23 && mi ≤ 59 && ss ≤ 59 && tzOk tz
  then some ⟨y, m, d, hh, mi, ss, tz⟩ else none

/-- `dateutil.parser.parse`, modelled on its ISO-8601 input subset. -/
def parseDT (s : String) : Option DT :=
  match splitDateTime s.data with
  | none => none
  | some (y, m, d, hh, mi, ss, tz) => buildDT y m d hh mi ss tz

/-- `norm_dt(raw)`: empty input and parse failures give `""`; a naive
parse is assumed UTC; otherwise the value is converted to UTC and
rendered in ISO-8601 (the year guard is the caught `OverflowError`). -/
def norm_dt (raw : String) : String :=
  if raw = "" then ""
  else
    match parseDT raw with
    | none => ""
    | some dt =>
      let u := toUTC dt
      if u.y < 1 || 9999 < u.y then "" else fmtIsoUtc u

/-! ## `auto_tag` and `CATEGORIES` (daily_briefing.py, lines 13–20, 40–46)

The external `re.search(p, hay, re.IGNORECASE)` calls are modelled by
a matcher over the exact constructs the configured patterns use:
literal characters, `X?` on a single character, and the `\b` word
boundary. Each entry of `CATEGORIES` below carries the token form of
the corresponding source regex. -/

/-- Pattern token: a literal character, an optional character (`X?`),
or a word boundary (`\b`). -/
inductive RTok where
  | lit (c : Char)
  | optc (c : Char)
  | wb
deriving DecidableEq, Repr

/-- Python `\w`: letters, digits, underscore. -/
def wordChar (c : Char) : Bool := c.isAlphanum || c = '_'

/-- Word-char test of an optional character (none counts as non-word). -/
def wordCharOpt : Option Char → Bool
  | none => false
  | some c => wordChar c

/-- Match a token list at the current position; `prev` is the
character just before the position (for `\b`). Case-insensitive, as
all source patterns are compiled with `re.IGNORECASE`. -/
def matchToks : List RTok → Option Char → List Char → Bool
  | [], _, _ => true
  | RTok.wb :: ts, prev, rest =>
    (wordCharOpt prev != wordCharOpt rest.head?) && matchToks ts prev rest
  | RTok.lit c :: ts, _, rest =>
    (match rest with
     | [] => false
     | x :: rest2 => (x.toLower == c.toLower) && matchToks ts (some x) rest2)
  | RTok.optc c :: ts, prev, rest =>
    (match rest with
     | [] => matchToks ts prev []
     | x :: rest2 =>
       ((x.toLower == c.toLower) && matchToks ts (some x) rest2) ||
         matchToks ts prev (x :: rest2))

/-- Try to match at every position of the haystack. -/
def searchFrom (ts : List RTok) : Option Char → List Char → Bool
  | prev, [] => matchToks ts prev []
  | prev, x :: rest => matchToks ts prev (x :: rest) || searchFrom ts (some x) rest

/-- `re.search(pattern, hay, re.IGNORECASE) is not None`. -/
def reSearch (ts : List RTok) (hay : String) : Bool := searchFrom ts none hay.data

/-- The tokens of a plain literal pattern. -/
def lits (s : String) : List RTok := s.data.map RTok.lit

/-- The `CATEGORIES` table, in source order; each pattern string of
the source appears here in token form. -/
def CATEGORIES : List (String × List (List RTok)) :=
  [("Regulation & Compliance",
    [[RTok.wb] ++ lits "CPNP" ++ [RTok.wb], [RTok.wb] ++ lits "REACH" ++ [RTok.wb],
     lits "SCCS", lits "regulation", lits "ban", lits "restricted", lits "compliance",
     lits "claims"]),
   ("Retail & Channel",
    [lits "Sephora", lits "Douglas", [RTok.wb] ++ lits "dm" ++ [RTok.wb], lits "Rossmann",
     lits "Boots", lits "retail", lits "listing", lits "distribution", lits "marketplace",
     lits "e" ++ [RTok.optc '-'] ++ lits "commerce"]),
   ("Market & Data",
    [lits "market size", [RTok.wb] ++ lits "CAGR" ++ [RTok.wb], lits "forecast",
     lits "report", lits "sales", lits "growth"]),
   ("Trend & Consumer",
    [lits "trend", lits "Gen Z", lits "ingredient", lits "barrier", lits "dermo",
     lits "clean beauty", lits "K" ++ [RTok.optc '-'] ++ lits "beauty"]),
   ("Brand & Marketing",
    [lits "campaign", lits "influencer", lits "branding", lits "launch",
     lits "collaboration"]),
   ("Competition Watch",
    [lits "acquired", lits "merger", lits "M&A", lits "competitor", lits "new brand",
     lits "expansion"])]

/-- The `tags` list built by `auto_tag`'s loop: the categories whose
pattern set has a match in the haystack `f"{title} {text}"`, in table
order. -/
def autoTags (title text : String) : List String :=
  (CATEGORIES.filter (fun c => c.2.any (fun p => reSearch p (title ++ " " ++ text)))).map
    Prod.fst

/-- `auto_tag(title, text)`: the matching categories, `["Other"]` when
none match (Python's `tags or ["Other"]`). -/
def auto_tag (title text : String) : List String :=
  if autoTags title text = [] then ["Other"] else autoTags title text

/-! ## Items and the feed collector (daily_briefing.py, lines 63–81)

The network fetch is an external collaborator: `fetch_all` is modelled
as a function of the already-fetched feed entries. `getattr(e, f, "")
or ""` defaults absent fields to `""`, so an entry is a record of six
strings, with Python's `x or y` fallbacks as emptiness tests. -/

/-- A parsed feed entry as `fetch_all` reads it. -/
structure Entry where
  title : String
  link : String
  summary : String
  description : String
  published : String
  updated : String
deriving DecidableEq, Repr

/-- An item of the pipeline (the dict built in `fetch_all`). -/
structure Item where
  key : String
  title : String
  link : String
  summary : String
  published : String
  tags : List String
deriving DecidableEq, Repr

/-- The item built from one feed entry (`fetch_all`'s loop body):
the key is derived from the raw link and title, the title and link
are only whitespace-trimmed, the summary is markup-stripped (with the
`summary`-then-`description` fallback) and trimmed, the timestamp is
normalised (with the `published`-then-`updated` fallback), and the
tags come from the raw title and the markup-stripped summary. -/
def mkItem (e : Entry) : Item :=
  let title := e.title
  let link := e.link
  let summary := strip_html (if e.summary ≠ "" then e.summary else e.description)
  let published := norm_dt (if e.published ≠ "" then e.published else e.updated)
  { key := stable_key link title
    title := pyStrip title
    link := pyStrip link
    summary := pyStrip summary
    published := published
    tags := auto_tag title summary }

/-- Python's `<` on strings: strict lexicographic comparison of code
points. -/
def strLt : List Char → List Char → Bool
  | [], [] => false
  | [], _ :: _ => true
  | _ :: _, [] => false
  | a :: as, b :: bs =>
    if a.toNat < b.toNat then true
    else if b.toNat < a.toNat then false
    else strLt as bs

/-- The sort key of `items.sort(key=lambda x: x["published"] or "0000",
reverse=True)`: an empty timestamp sorts as the string `"0000"`. -/
def sortKeyStr (it : Item) : String := if it.published = "" then "0000" else it.published

/-- The descending comparison realising `reverse=True`: `a` may
precede `b` iff `a`'s key is not smaller than `b`'s. -/
def sortRel (a b : Item) : Prop := strLt (sortKeyStr a).data (sortKeyStr b).data = false

instance : DecidableRel sortRel := fun _ _ => instDecidableEqBool _ _

/-- Python's stable sort with `reverse=True` on the `published`
key: a stable descending sort, realised by insertion sort on
`sortRel` (equal keys keep input order). -/
def sortItems (l : List Item) : List Item := List.insertionSort sortRel l

/-- `fetch_all()`: one item per fetched entry, sorted by `published`
descending with empty timestamps last. -/
def fetch_all (entries : List Entry) : List Item := sortItems (entries.map mkItem)

/-! ## The seen-state store (daily_briefing.py, lines 52–61, 149–160)

`main` holds the seen keys in a Python `set`; `state["seen"] =
list(seen)` enumerates that set in an order the language does not
specify (string hashing is randomised per process). The enumeration is
therefore passed as an explicit `order` argument, constrained by
`isEnumOf` to be exactly what `list` of that set can return. -/

/-- `save_state`: the persisted list is truncated to its last 2000
entries (`state["seen"][-2000:]`). -/
def save_state (seenList : List String) : List String :=
  seenList.drop (seenList.length - 2000)

/-- The filtering step of `main` (`[it for it in items if it["key"]
not in seen]`), with the seen set given by a list of its members. -/
def filterNew (items : List Item) (seen : List String) : List Item :=
  items.filter (fun it => !(seen.contains it.key))

/-- `order` is a possible result of Python's `list` on the set of the
elements of `pool`: duplicate-free and with exactly the members of
`pool`. -/
def isEnumOf (order pool : List String) : Prop :=
  order.Nodup ∧ (∀ k ∈ order, k ∈ pool) ∧ (∀ k ∈ pool, k ∈ order)

instance (order pool : List String) : Decidable (isEnumOf order pool) := by
  unfold isEnumOf; infer_instance

/-- The pool of keys held by `main`'s `seen` set just before
`save_state`: the loaded keys plus the keys of the run's new items. -/
def recordPool (seen0 : List String) (newItems : List Item) : List String :=
  seen0 ++ newItems.map Item.key

/-! ## The digest renderer (daily_briefing.py, lines 83–129) -/

/-- The summary as displayed by `item_html`: truncated to 220
characters plus an ellipsis when longer than 220. -/
def dispSummary (it : Item) : String :=
  if 220 < it.summary.length then it.summary.take 220 ++ "…" else it.summary

/-- The date as displayed by `item_html`: the first ten characters of
the timestamp, blank when unknown. -/
def dispDate (it : Item) : String :=
  if it.published = "" then "" else it.published.take 10

/-- The fixed markup of `item_html` before the summary. -/
def itemPre (it : Item) : String :=
  "\n        <li style=\"margin-bottom:12px;\">\n          <div><a href=\"" ++ it.link ++
  "\" target=\"_blank\" rel=\"noreferrer\">" ++ it.title ++
  "</a></div>\n          <div style=\"color:#666; font-size:12px;\">" ++ dispDate it ++
  "</div>\n          <div style=\"margin-top:4px; color:#111;\">"

/-- The fixed markup of `item_html` after the summary. -/
def itemSuffix : String := "</div>\n        </li>\n        "

/-- `item_html(it)`: one rendered list entry. -/
def item_html (it : Item) : String := itemPre it ++ dispSummary it ++ itemSuffix

/-- The fixed category display order of `build_html_report`. -/
def orderCats : List String :=
  ["Regulation & Compliance", "Retail & Channel", "Market & Data",
   "Trend & Consumer", "Brand & Marketing", "Competition Watch", "Other"]

/-- `by_cat.get(cat, [])`: the items carrying a tag, in input order
(the `setdefault`/`append` loop groups by fan-out). -/
def catItems (newItems : List Item) (cat : String) : List Item :=
  newItems.filter (fun it => it.tags.contains cat)

/-- One category section: skipped when empty, else a heading and up to
ten rendered items. -/
def sectionHtml (newItems : List Item) (cat : String) : List String :=
  let arr := catItems newItems cat
  if arr = [] then []
  else
    let arr := arr.take 10
    ["<h3 style='margin-top:20px;'>" ++ cat ++ " (" ++ toString arr.length ++ ")</h3>",
     "<ul>" ++ String.intercalate "\n" (arr.map item_html) ++ "</ul>"]

/-- `build_html_report(new_items)`, with `datetime.now` passed in as
`today`. -/
def build_html_report (today : String) (newItems : List Item) : String :=
  let sections := ("<p>오늘 신규 기사: <b>" ++ toString newItems.length ++ "</b>개</p>") ::
    orderCats.flatMap (sectionHtml newItems)
  "\n    <html>\n      <body style=\"font-family: Arial, sans-serif; line-height:1.4;\">\n        <h2>EU K-Beauty Daily Briefing — " ++
  today ++ " (UTC)</h2>\n        " ++ String.join sections ++
  "\n        <hr/>\n        <p style=\"color:#777; font-size:12px;\">RSS 기반 자동 수집/분류 결과. 원문은 링크를 확인하세요.</p>\n      </body>\n    </html>\n    "

/-! ## `main` (daily_briefing.py, lines 149–169)

`main` is modelled as the list of externally visible effects it
performs, in order: the state write, then (when there are new items)
the email dispatch and the status print. `fetched` is the result of
`fetch_all()`, `seen0` the loaded `state["seen"]`, `order` the
enumeration of the updated seen set (see `isEnumOf`), `today` the
current UTC date. -/

/-- An externally visible effect of one run. -/
inductive Event where
  | save (seenList : List String)
  | send (subject html : String)
  | printed (msg : String)
deriving DecidableEq, Repr

/-- The subject line of the dispatched email. -/
def subjectLine (today : String) : String := "EU K-Beauty Daily Briefing (" ++ today ++ ")"

/-- `main`'s `new_items`: the unseen items, capped at 40
(`new_items = new_items[:40]`). -/
def mainNewItems (fetched : List Item) (seen0 : List String) : List Item :=
  (filterNew fetched seen0).take 40

/-- The effect trace of `main`: filter to unseen items, cap at 40,
persist the (truncated) updated seen set, then either report "no new
items" or send the digest. -/
def mainEvents (fetched : List Item) (seen0 order : List String) (today : String) :
    List Event :=
  Event.save (save_state order) ::
    (if mainNewItems fetched seen0 = [] then [Event.printed "No new items."]
     else [Event.send (subjectLine today)
             (build_html_report today (mainNewItems fetched seen0)),
           Event.printed ("Sent " ++ toString (mainNewItems fetched seen0).length ++
             " items.")])

/-! ## Specification-side checker and concrete inputs for the theorems -/

/-- The shape of an ISO-8601 UTC timestamp as the specification
describes the output of `norm_dt`: `YYYY-MM-DDTHH:MM:SS+00:00`. This
checker is written from the spec's words, independently of
`fmtIsoUtc`. -/
def isIsoUtcShape (s : String) : Bool :=
  match s.data with
  | [a1, a2, a3, a4, b1, c1, c2, b2, e1, e2, b3, f1, f2, b4, g1, g2, b5, h1, h2, b6,
     i1, i2, b7, j1, j2] =>
    a1.isDigit && a2.isDigit && a3.isDigit && a4.isDigit && b1 == '-' &&
    c1.isDigit && c2.isDigit && b2 == '-' && e1.isDigit && e2.isDigit && b3 == 'T' &&
    f1.isDigit && f2.isDigit && b4 == ':' && g1.isDigit && g2.isDigit && b5 == ':' &&
    h1.isDigit && h2.isDigit && b6 == '+' && i1 == '0' && i2 == '0' && b7 == ':' &&
    j1 == '0' && j2 == '0'
  | _ => false

/-- The `i`-th test key: a run of `i` copies of `'a'` (keys of
distinct indices differ, having distinct lengths). -/
def kname (i : Nat) : String := String.mk (List.replicate i 'a')

/-- A minimal item with a given key. -/
def cItem (k : String) : Item :=
  { key := k, title := "", link := "", summary := "", published := "", tags := ["Other"] }

/-- 2001 items with pairwise distinct keys. -/
def bigL : List Item := (List.range 2001).map (fun i => cItem (kname i))

/-- The enumeration of `bigL`'s keys in insertion order. -/
def bigOrder : List String := (List.range 2001).map kname

/-- A full seen state of 2000 previously recorded keys. -/
def oldKeys : List String := (List.range 2000).map kname

/-- The key recorded most recently, distinct from all of `oldKeys`. -/
def newestKey : String := kname 2000

/-- An enumeration of `set(oldKeys) ∪ {newestKey}` that Python's
`list` may return: the newest key first. -/
def badOrder : List String := newestKey :: oldKeys

/-- A 300-character summary. -/
def sum300 : String := String.mk (List.replicate 300 'a')

/-- A 100-character summary. -/
def sum100 : String := String.mk (List.replicate 100 'b')

/-- An item whose summary has 300 characters. -/
def item300 : Item :=
  { key := "k1", title := "t", link := "l", summary := sum300, published := "", tags := ["Other"] }

/-- An item whose summary has 100 characters. -/
def item100 : Item :=
  { key := "k2", title := "t", link := "l", summary := sum100, published := "", tags := ["Other"] }

/-- An item dated 2024-01-02. -/
def itemD2 : Item :=
  { key := "a", title := "", link := "", summary := "", published := "2024-01-02", tags := ["Other"] }

/-- An item with an unknown (empty) timestamp. -/
def itemDempty : Item :=
  { key := "b", title := "", link := "", summary := "", published := "", tags := ["Other"] }

/-- An item dated 2024-01-03. -/
def itemD3 : Item :=
  { key := "c", title := "", link := "", summary := "", published := "2024-01-03", tags := ["Other"] }

/-- 41 unseen items with pairwise distinct keys. -/
def manyItems : List Item := (List.range 41).map (fun i => cItem (kname i))

/-- The keys `main` adds when run on `manyItems` with an empty seen
state: the keys of the 40 items that survive the cap. -/
def first40Keys : List String :=
  ((filterNew (sortItems manyItems) []).take 40).map Item.key

/-- An entry whose raw title carries markup. -/
def entryMarkupTitle : Entry :=
  { title := "<b>Hi</b>", link := "L", summary := "", description := "",
    published := "", updated := "" }

/-! ## Theorems -/

/-- SHA-256 test vector (FIPS 180-2, the one-block message `"abc"`),
certifying that the embedded hash is the real SHA-256. -/
theorem sha256Hex_abc :
    sha256Hex (utf8Encode "abc") =
      "ba7816bf8f01cfea414140de5dae2223b00361a396177a9cb410ff61f20015ad" := by decide

/-- A concrete `stable_key` value, matching CPython's
`hashlib.sha256("https://x.com/a||Hello".encode("utf-8")).hexdigest()[:24]`. -/
theorem stable_key_example :
    stable_key "https://x.com/a" "Hello" = "2e68a151666c9a80c09b5e6b" := by decide

/-- C1: `stable_key` is a pure, deterministic function of
`(link, title)` — repeated calls agree — and the key is the first 24
hexadecimal characters of the SHA-256 digest of the UTF-8 encoding of
the link, the fixed separator `"||"`, and the title. -/
theorem C1_stable_key_sha256_prefix (link title : String) :
    stable_key link title = (sha256Hex (utf8Encode (link ++ "||" ++ title))).take 24 ∧
    stable_key link title = stable_key link title :=
  ⟨rfl, rfl⟩

/-- C4 (amended): every collected item's title is the feed entry's raw
title with surrounding whitespace trimmed; markup is NOT stripped from
titles (`strip_html` is applied to the summary only). -/
theorem C4_title_trimmed_not_stripped (e : Entry) :
    (mkItem e).title = pyStrip e.title := rfl

/-- C4 counterexample: for the entry titled `"<b>Hi</b>"` the built
item's title is not the markup-stripped, trimmed raw title — the code
keeps the markup, refuting the claim as stated. -/
theorem C4_counterexample :
    (mkItem entryMarkupTitle).title ≠ pyStrip (strip_html entryMarkupTitle.title) := by
  decide

/-- C6: `auto_tag` always returns a non-empty tag list, and when no
configured category pattern matches the haystack built from title and
summary, the result is exactly `["Other"]`. -/
theorem C6_auto_tag_nonempty (title text : String) :
    auto_tag title text ≠ [] ∧
    ((∀ cp ∈ CATEGORIES, ∀ p ∈ cp.2, reSearch p (title ++ " " ++ text) = false) →
      auto_tag title text = ["Other"]) := by
  constructor
  · unfold auto_tag
    split
    · simp
    · rename_i h
      exact h
  · intro hno
    have hfil : autoTags title text = [] := by
      unfold autoTags
      rw [List.map_eq_nil_iff, List.filter_eq_nil_iff]
      intro c hc
      rw [Bool.not_eq_true, List.any_eq_false]
      intro p hp
      rw [hno c hc p hp]
      exact Bool.false_ne_true
    unfold auto_tag
    rw [hfil]
    simp

/-- C6 witness: at `("qqq", "zzz")` no pattern matches, the result is
non-empty and equals `["Other"]`. -/
theorem C6_witness : auto_tag "qqq" "zzz" ≠ [] ∧ auto_tag "qqq" "zzz" = ["Other"] :=
  ⟨(C6_auto_tag_nonempty "qqq" "zzz").1,
   (C6_auto_tag_nonempty "qqq" "zzz").2 (by decide)⟩

/-- C8: a summary longer than 220 characters is rendered as its first
220 characters followed by the ellipsis marker; a summary of at most
220 characters is rendered unchanged. -/
theorem C8_summary_truncation (it : Item) :
    (220 < it.summary.length →
      item_html it = itemPre it ++ (it.summary.take 220 ++ "…") ++ itemSuffix) ∧
    (it.summary.length ≤ 220 →
      item_html it = itemPre it ++ it.summary ++ itemSuffix) := by
  constructor
  · intro h
    unfold item_html dispSummary
    rw [if_pos h]
  · intro h
    unfold item_html dispSummary
    rw [if_neg (by omega)]

/-- C8 witness: a 300-character summary renders as its first 220
characters plus the ellipsis, a 100-character summary unchanged. -/
theorem C8_witness :
    item_html item300 = itemPre item300 ++ (sum300.take 220 ++ "…") ++ itemSuffix ∧
    item_html item100 = itemPre item100 ++ sum100 ++ itemSuffix :=
  ⟨(C8_summary_truncation item300).1 (by decide),
   (C8_summary_truncation item100).2 (by decide)⟩

/-- Inversion of the range validation: a successfully built datetime
has a year within `datetime`'s range. -/
theorem buildDT_year_bounds {y m d hh mi ss : Nat} {tz : Option TZOff} {dt : DT}
    (h : buildDT y m d hh mi ss tz = some dt) : 1 ≤ dt.y ∧ dt.y ≤ 9999 := by
  unfold buildDT at h
  split at h
  · rename_i hc
    cases h
    simp only [Bool.and_eq_true, decide_eq_true_eq] at hc
    exact ⟨hc.1.1.1.1.1.1.1.1.1, hc.1.1.1.1.1.1.1.1.2⟩
  · cases h

/-- A successfully parsed timestamp has a year within range. -/
theorem parseDT_year_bounds {s : String} {dt : DT} (h : parseDT s = some dt) :
    1 ≤ dt.y ∧ dt.y ≤ 9999 := by
  unfold parseDT at h
  split at h
  · cases h
  · exact buildDT_year_bounds h

/-- Every formatted timestamp has the ISO-8601 UTC shape (digit
characters are produced positionally). -/
theorem isIsoUtcShape_fmtIsoUtc (dt : DT) : isIsoUtcShape (fmtIsoUtc dt) = true := by
  have hd : ∀ n : Nat, (dch n).isDigit = true := by
    intro n
    have h10 : n % 10 < 10 := Nat.mod_lt _ (by decide)
    have hall : ∀ k < 10, (Nat.digitChar k).isDigit = true := by decide
    exact hall (n % 10) h10
  simp [isIsoUtcShape, fmtIsoUtc, hd]

/-- C7: `norm_dt` is total (never throws); on parse failure it returns
the empty string; its result is always either empty or an ISO-8601 UTC
timestamp; and a successfully parsed value without timezone
information is taken as UTC wall-clock time unchanged. -/
theorem C7_norm_dt_iso_or_empty (raw : String) :
    (parseDT raw = none → norm_dt raw = "") ∧
    (norm_dt raw = "" ∨ isIsoUtcShape (norm_dt raw) = true) ∧
    (∀ dt, parseDT raw = some dt → dt.tz = none → norm_dt raw = fmtIsoUtc dt) := by
  refine ⟨?_, ?_, ?_⟩
  · intro h
    unfold norm_dt
    split
    · rfl
    · rw [h]
  · unfold norm_dt
    split
    · left; rfl
    · cases hp : parseDT raw with
      | none => left; rfl
      | some dt =>
        simp only
        split
        · left; rfl
        · right; exact isIsoUtcShape_fmtIsoUtc _
  · intro dt hp htz
    have hy := parseDT_year_bounds hp
    have hraw : ¬ raw = "" := by
      intro he
      rw [he] at hp
      exact Option.noConfusion ((rfl : parseDT "" = none) ▸ hp)
    have hu : toUTC dt = dt := by
      unfold toUTC
      rw [htz]
    unfold norm_dt
    rw [if_neg hraw, hp]
    simp only [hu]
    rw [if_neg]
    simp only [Bool.or_eq_true, decide_eq_true_eq, not_or]
    omega

/-- C7 witness: a non-timestamp input maps to the empty string; a
naive ISO timestamp is kept as UTC wall-clock time. -/
theorem C7_witness :
    norm_dt "not a date" = "" ∧
    norm_dt "2024-01-02T03:04:05" = fmtIsoUtc ⟨2024, 1, 2, 3, 4, 5, none⟩ :=
  ⟨(C7_norm_dt_iso_or_empty "not a date").1 (by decide),
   (C7_norm_dt_iso_or_empty "2024-01-02T03:04:05").2.2 ⟨2024, 1, 2, 3, 4, 5, none⟩
     (by decide) rfl⟩

/-- Lexicographic strictness is irreflexive. -/
theorem strLt_irrefl (x : List Char) : strLt x x = false := by
  induction x with
  | nil => rfl
  | cons a as ih => simp [strLt, ih]

/-- One direction of `strLt` always fails: the descending relation is
total. -/
theorem strLt_total_neg (x : List Char) : ∀ y, strLt x y = false ∨ strLt y x = false := by
  induction x with
  | nil =>
    intro y
    cases y with
    | nil => exact Or.inl rfl
    | cons b bs => exact Or.inr rfl
  | cons a as ih =>
    intro y
    cases y with
    | nil => exact Or.inl rfl
    | cons b bs =>
      by_cases hab : a.toNat < b.toNat
      · right
        simp [strLt, hab, Nat.lt_asymm hab]
      · by_cases hba : b.toNat < a.toNat
        · left
          simp [strLt, hab, hba]
        · rcases ih bs with h | h
          · left; simp [strLt, hab, hba, h]
          · right; simp [strLt, hab, hba, h]

/-- The descending relation is transitive. -/
theorem strLt_trans_neg (x : List Char) :
    ∀ y z, strLt x y = false → strLt y z = false → strLt x z = false := by
  induction x with
  | nil =>
    intro y z h1 h2
    cases y with
    | nil => exact h2
    | cons b bs => simp [strLt] at h1
  | cons a as ih =>
    intro y z h1 h2
    cases y with
    | nil =>
      cases z with
      | nil => exact h2
      | cons c cs => simp [strLt] at h2
    | cons b bs =>
      cases z with
      | nil => rfl
      | cons c cs =>
        simp only [strLt] at h1 h2 ⊢
        by_cases hab : a.toNat < b.toNat
        · simp [hab] at h1
        · by_cases hbc : b.toNat < c.toNat
          · simp [hbc] at h2
          · by_cases hba : b.toNat < a.toNat
            · by_cases hcb : c.toNat < b.toNat
              · have hca : c.toNat < a.toNat := Nat.lt_trans hcb hba
                simp [Nat.lt_asymm hca, hca]
              · have hca : c.toNat < a.toNat := by omega
                simp [Nat.lt_asymm hca, hca]
            · have hab2 : a.toNat = b.toNat := by omega
              by_cases hcb : c.toNat < b.toNat
              · have hca : c.toNat < a.toNat := by omega
                simp [Nat.lt_asymm hca, hca]
              · have hbc2 : b.toNat = c.toNat := by omega
                have h1r : strLt as bs = false := by simpa [hab, hba] using h1
                have h2r : strLt bs cs = false := by simpa [hbc, hcb] using h2
                have hac1 : ¬ a.toNat < c.toNat := by omega
                have hac2 : ¬ c.toNat < a.toNat := by omega
                simp [hac1, hac2, ih bs cs h1r h2r]

/-- Inserting an item places it before exactly the items with strictly
smaller sort key, so the filter at any fixed key value sees the new
item first when it carries that key, and is untouched otherwise. -/
theorem filter_orderedInsert_key (k : String) (a : Item) (l : List Item) :
    (List.orderedInsert sortRel a l).filter (fun it => sortKeyStr it == k) =
      if sortKeyStr a == k then a :: l.filter (fun it => sortKeyStr it == k)
      else l.filter (fun it => sortKeyStr it == k) := by
  induction l with
  | nil =>
    simp only [List.orderedInsert, List.filter]
    split <;> rename_i h <;> simp [h]
  | cons b t ih =>
    by_cases hr : sortRel a b
    · simp only [List.orderedInsert, if_pos hr]
      by_cases ha : sortKeyStr a == k <;> simp [List.filter_cons, ha]
    · simp only [List.orderedInsert, if_neg hr]
      by_cases hb : sortKeyStr b == k
      · have ha : ¬ (sortKeyStr a == k) = true := by
          intro hak
          apply hr
          unfold sortRel
          rw [eq_of_beq hak, eq_of_beq hb]
          exact strLt_irrefl _
        simp [List.filter_cons, hb, ha, ih]
      · simp [List.filter_cons, hb, ih]

/-- Stability of the collector's sort: at every fixed sort key, the
sorted list restricted to that key is the input restricted to that
key, in the same order. -/
theorem filter_sortItems_key (k : String) (l : List Item) :
    (sortItems l).filter (fun it => sortKeyStr it == k) =
      l.filter (fun it => sortKeyStr it == k) := by
  induction l with
  | nil => rfl
  | cons a t ih =>
    show (List.orderedInsert sortRel a (List.insertionSort sortRel t)).filter _ = _
    rw [filter_orderedInsert_key]
    by_cases ha : sortKeyStr a == k
    · rw [if_pos ha]
      simp only [List.filter_cons, ha, if_true]
      exact congrArg _ ih
    · rw [if_neg ha]
      simp only [List.filter_cons, ha, if_false]
      exact ih

/-- C5: `fetch_all`\'s sort is descending on the `published` key (empty
timestamps keyed `"0000"`, hence last), it is a permutation of its
input, it is stable (items of equal key keep their relative order, by
the filter conjunct), and on items dated `"2024-01-02"`, `""`,
`"2024-01-03"` it returns the order `"2024-01-03"`, `"2024-01-02"`,
`""`. -/
theorem C5_sort_descending_stable (l : List Item) :
    List.Sorted sortRel (sortItems l) ∧
    List.Perm (sortItems l) l ∧
    (∀ k : String, (sortItems l).filter (fun it => sortKeyStr it == k) =
      l.filter (fun it => sortKeyStr it == k)) ∧
    sortItems [itemD2, itemDempty, itemD3] = [itemD3, itemD2, itemDempty] := by
  haveI : IsTotal Item sortRel := ⟨fun a b => strLt_total_neg _ _⟩
  haveI : IsTrans Item sortRel := ⟨fun _ _ _ hab hbc => strLt_trans_neg _ _ _ hab hbc⟩
  exact ⟨List.sorted_insertionSort sortRel l, List.perm_insertionSort sortRel l,
    fun k => filter_sortItems_key k l, by decide⟩

/-- Truncation is the identity on lists within the 2000 bound. -/
theorem save_state_of_le {l : List String} (h : l.length ≤ 2000) : save_state l = l := by
  unfold save_state
  rw [Nat.sub_eq_zero_of_le h, List.drop_zero]

/-- The persisted seen list never exceeds 2000 entries. -/
theorem save_state_length_le (l : List String) : (save_state l).length ≤ 2000 := by
  unfold save_state
  rw [List.length_drop]
  omega

/-- Truncation only removes keys, it never adds any. -/
theorem save_state_subset (l : List String) : ∀ k ∈ save_state l, k ∈ l :=
  fun _ hk => List.mem_of_mem_drop hk

/-- Membership in `filterNew`: kept iff present and unseen. -/
theorem mem_filterNew {items : List Item} {seen : List String} {it : Item} :
    it ∈ filterNew items seen ↔ it ∈ items ∧ it.key ∉ seen := by
  unfold filterNew
  rw [List.mem_filter]
  simp [List.elem_iff]

/-- Distinct indices give distinct test keys. -/
theorem kname_inj : Function.Injective kname := by
  intro i j h
  have h2 := congrArg (fun s : String => s.data.length) h
  simpa [kname] using h2

/-- C2: evaluation of the recording step at the failing input. With a
full state of 2000 old keys and one newly added key, the enumeration
`badOrder` (newest key first) is a legitimate `list(seen)` result, and
truncation then evicts the newest key while keeping all 2000 older
ones — the opposite of the claimed oldest-first eviction. The 2000
size bound itself does hold. -/
theorem C2_truncation_evicts_newest :
    isEnumOf badOrder (recordPool oldKeys [cItem newestKey]) ∧
    (save_state badOrder).length ≤ 2000 ∧
    newestKey ∉ save_state badOrder ∧
    (∀ k ∈ oldKeys, k ∈ save_state badOrder) := by
  have hlen : oldKeys.length = 2000 := by simp [oldKeys]
  have hsave : save_state badOrder = oldKeys := by
    unfold save_state badOrder
    rw [List.length_cons, hlen]
    norm_num
  have hnew : newestKey ∉ oldKeys := by
    intro hmem
    rw [oldKeys, List.mem_map] at hmem
    obtain ⟨i, hi, hk⟩ := hmem
    rw [List.mem_range] at hi
    have := kname_inj hk
    omega
  have hnodup : oldKeys.Nodup := List.Nodup.map kname_inj (List.nodup_range 2000)
  have hpool : recordPool oldKeys [cItem newestKey] = oldKeys ++ [newestKey] := rfl
  refine ⟨⟨List.nodup_cons.mpr ⟨hnew, hnodup⟩, ?_, ?_⟩, ?_, ?_, ?_⟩
  · intro k hk
    rw [hpool, List.mem_append]
    rcases List.mem_cons.mp hk with h | h
    · right; rw [h]; exact List.mem_singleton.mpr rfl
    · exact Or.inl h
  · intro k hk
    rw [hpool, List.mem_append] at hk
    rcases hk with h | h
    · exact List.mem_cons_of_mem _ h
    · rw [List.mem_singleton.mp h]
      exact List.mem_cons_self _ _
  · exact save_state_length_le _
  · rw [hsave]; exact hnew
  · rw [hsave]; exact fun k hk => hk

/-- C3 (amended): when the updated seen set fits within the 2000-entry
bound (so truncation removes nothing), a second `filterNew` run on the
same items against the recorded state returns the empty list. -/
theorem C3_filterNew_idempotent (L : List Item) (S order : List String)
    (henum : isEnumOf order (recordPool S (filterNew L S)))
    (hsz : order.length ≤ 2000) :
    filterNew L (save_state order) = [] := by
  rw [save_state_of_le hsz]
  unfold filterNew
  rw [List.filter_eq_nil_iff]
  intro it hit
  obtain ⟨hnodup, hfwd, hbwd⟩ := henum
  have hkey : it.key ∈ order := by
    apply hbwd
    unfold recordPool
    rw [List.mem_append]
    by_cases hs : it.key ∈ S
    · exact Or.inl hs
    · right
      rw [List.mem_map]
      refine ⟨it, ?_, rfl⟩
      rw [mem_filterNew]
      exact ⟨hit, hs⟩
  simp [List.elem_iff, hkey]

/-- C3 witness for the amended claim: one fresh item on an empty
state; after recording, the same item filters to nothing. -/
theorem C3_witness : filterNew [cItem (kname 1)] (save_state [kname 1]) = [] :=
  C3_filterNew_idempotent [cItem (kname 1)] [] [kname 1] (by decide) (by decide)

/-- C3 counterexample: with 2001 fresh items (pairwise distinct keys)
on an empty state, the updated seen set has 2001 keys, so `save_state`
must drop one whatever enumeration `list(seen)` returns; under the
insertion-order enumeration the first key is dropped, and re-running
`filterNew` on the same items is non-empty — refuting the claim as
stated for arbitrary states and item lists. -/
theorem C3_counterexample :
    isEnumOf bigOrder (recordPool [] (filterNew bigL [])) ∧
    filterNew bigL (save_state bigOrder) ≠ [] := by
  have hfil : filterNew bigL [] = bigL := by
    unfold filterNew
    exact List.filter_eq_self.mpr (fun a _ => rfl)
  have hpool : recordPool [] (filterNew bigL []) = bigOrder := by
    rw [hfil]
    unfold recordPool bigL bigOrder
    rw [List.map_map]
    rfl
  have hlen : bigOrder.length = 2001 := by simp [bigOrder]
  have hdrop : save_state bigOrder = bigOrder.drop 1 := by
    unfold save_state
    rw [hlen]
  have hnodup : bigOrder.Nodup := List.Nodup.map kname_inj (List.nodup_range 2001)
  refine ⟨?_, ?_⟩
  · rw [hpool]
    exact ⟨hnodup, fun k hk => hk, fun k hk => hk⟩
  · intro hempty
    have hmem : cItem (kname 0) ∈ filterNew bigL (save_state bigOrder) := by
      rw [mem_filterNew]
      constructor
      · rw [bigL, List.mem_map]
        exact ⟨0, List.mem_range.mpr (by omega), rfl⟩
      · intro hk
        rw [hdrop, bigOrder, (by norm_num : (2001 : Nat) = 2000 + 1),
          List.range_succ_eq_map, List.map_cons, List.drop_one, List.tail_cons,
          List.map_map, List.mem_map] at hk
        obtain ⟨i, _, hki⟩ := hk
        have : i + 1 = 0 := kname_inj hki
        omega
    rw [hempty] at hmem
    exact List.not_mem_nil _ hmem

/-- C9: in every run the state save is the first effect and any email
dispatch comes strictly after it, and the saved state is the recorded
(truncated) seen set — so if `send_email` fails, the run's new keys
have already been persisted and the state mutation is not rolled
back. -/
theorem C9_save_precedes_send (fetched : List Item) (seen0 order : List String)
    (today : String) (i j : Nat) (st : List String) (subj html : String)
    (hi : (mainEvents fetched seen0 order today)[i]? = some (Event.save st))
    (hj : (mainEvents fetched seen0 order today)[j]? = some (Event.send subj html)) :
    i < j ∧ st = save_state order := by
  unfold mainEvents at hi hj
  have hj0 : j ≠ 0 := by
    intro h0
    subst h0
    rw [List.getElem?_cons_zero] at hj
    simp at hj
  have hi0 : i = 0 := by
    by_contra hne
    obtain ⟨n, rfl⟩ : ∃ n, i = n + 1 := ⟨i - 1, by omega⟩
    rw [List.getElem?_cons_succ] at hi
    split at hi
    · rcases n with _ | n <;> simp at hi
    · rcases n with _ | _ | n <;> simp at hi
  subst hi0
  refine ⟨by omega, ?_⟩
  rw [List.getElem?_cons_zero] at hi
  simp only [Option.some.injEq, Event.save.injEq] at hi
  exact hi.symm

/-- C9 witness: a run with one new item saves first (index 0) and
sends after (index 1), the saved state being the truncated record. -/
theorem C9_witness : (0 : Nat) < 1 ∧ [kname 1] = save_state [kname 1] :=
  C9_save_precedes_send [cItem (kname 1)] [] [kname 1] "2026-10-12" 0 1 [kname 1]
    (subjectLine "2026-10-12")
    (build_html_report "2026-10-12" (mainNewItems [cItem (kname 1)] []))
    (by decide) (by decide)

/-- C10: with more than 40 unseen items, the seen set recorded by the
run consists of exactly the old keys plus the keys of the first 40
unseen items after sorting; the key of an unseen item beyond the cap
(not sharing a key with the first 40) is absent from the persisted
state, and that item remains eligible — `filterNew` still returns it
against the updated state. -/
theorem C10_cap40_frame (fetched : List Item) (seen0 order : List String) (it : Item)
    (henum : isEnumOf order
      (recordPool seen0 ((filterNew (sortItems fetched) seen0).take 40)))
    (hit : it ∈ (filterNew (sortItems fetched) seen0).drop 40)
    (hkey : it.key ∉ ((filterNew (sortItems fetched) seen0).take 40).map Item.key) :
    (∀ k, k ∈ order ↔
      (k ∈ seen0 ∨ k ∈ ((filterNew (sortItems fetched) seen0).take 40).map Item.key)) ∧
    it.key ∉ save_state order ∧
    it ∈ filterNew (sortItems fetched) (save_state order) := by
  obtain ⟨hnodup, hfwd, hbwd⟩ := henum
  have hiff : ∀ k, k ∈ order ↔
      (k ∈ seen0 ∨ k ∈ ((filterNew (sortItems fetched) seen0).take 40).map Item.key) := by
    intro k
    constructor
    · intro hk
      have hm := hfwd k hk
      unfold recordPool at hm
      rwa [List.mem_append] at hm
    · intro hk
      apply hbwd
      unfold recordPool
      rw [List.mem_append]
      exact hk
  have hitL : it ∈ filterNew (sortItems fetched) seen0 := List.mem_of_mem_drop hit
  have hnotseen : it.key ∉ seen0 := (mem_filterNew.mp hitL).2
  have hnotorder : it.key ∉ order := by
    intro hk
    rcases (hiff it.key).mp hk with h | h
    · exact hnotseen h
    · exact hkey h
  have hnotsave : it.key ∉ save_state order :=
    fun hk => hnotorder (save_state_subset _ _ hk)
  refine ⟨hiff, hnotsave, ?_⟩
  rw [mem_filterNew]
  exact ⟨(mem_filterNew.mp hitL).1, hnotsave⟩

/-- C10 witness: 41 fresh items; after the run records the first 40
keys, the 41st item's key is still absent from the persisted state and
the item is still returned by `filterNew`. -/
theorem C10_witness :
    (cItem (kname 40)).key ∉ save_state first40Keys ∧
    cItem (kname 40) ∈ filterNew (sortItems manyItems) (save_state first40Keys) :=
  ⟨(C10_cap40_frame manyItems [] first40Keys (cItem (kname 40))
      (by decide) (by decide) (by decide)).2.1,
   (C10_cap40_frame manyItems [] first40Keys (cItem (kname 40))
      (by decide) (by decide) (by decide)).2.2⟩
